import Mathlib

/-
Verification of the currency-converter rate-acquisition, caching and
conversion core (src/app/index.js) against its specification.

Modelling conventions:
  * JavaScript numbers are embedded as rationals (exact arithmetic).
  * A JS object holding rates is an association list; `List.lookup` is the
    property read `rates[code]` (first binding wins, keys are unique in the
    source objects).
  * Timestamps are integers (milliseconds); the module-level variables
    `exchangeRates` and `lastFetchTime` form the explicit `CacheState`.
  * One call to `fetchExchangeRates` is a pure function of the cache state,
    the clock reading `now = Date.now()` and the outcome of the (single)
    provider interaction, returning the new state, the resolved table, and
    whether an outbound request was issued.
-/

namespace CurrencyConverter

/-- A rate table: currency code to rate, as in the JS objects. -/
abbrev RateTable := List (String × ℚ)

/-- src/app/index.js lines 6-13: the static fallback table (base USD). -/
def fallbackRates : RateTable :=
  [("USD", 1), ("INR", 88), ("EUR", 92/100), ("GBP", 78/100),
   ("JPY", 1563/10), ("AED", 367/100)]

/-- src/app/index.js line 18: CACHE_DURATION = 10 * 60 * 1000 ms. -/
def CACHE_DURATION : Int := 10 * 60 * 1000

/-- The module-level mutable cache: `exchangeRates` and `lastFetchTime`. -/
structure CacheState where
  exchangeRates : RateTable
  lastFetchTime : Int
deriving Repr, DecidableEq

/-- src/app/index.js lines 16-17: initial state, a copy of the fallback
table and `lastFetchTime = 0` (0 encodes never-fetched). -/
def initialState : CacheState := ⟨fallbackRates, 0⟩

/-- The possible outcomes of one provider interaction, covering every
branch of `fetchExchangeRates` lines 38-81: a parsed body with a `rates`
field, a parsed body without one, an unparseable body, a transport error,
or expiry of the 5 s timeout. -/
inductive ProviderOutcome where
  | success (apiRates : RateTable)
  | missingRates
  | parseError
  | networkError
  | timeout
deriving Repr, DecidableEq

/-- The outcomes on which the source logs an error/fallback message. -/
def ProviderOutcome.isFailure : ProviderOutcome → Bool
  | .success _ => false
  | _ => true

/-- JS object spread `{ ...first, ...later }`: a later binding overrides an
earlier one with the same key. -/
def objMerge (first later : RateTable) : RateTable :=
  first.filter (fun p => (later.lookup p.1).isNone) ++ later

/-- src/app/index.js lines 51-54: `exchangeRates = { USD: 1.0,
...apiResponse.rates }`. The spread is written after the `USD: 1.0` entry,
so a `USD` key in the response overrides the 1.0. -/
def mergedRates (apiRates : RateTable) : RateTable :=
  objMerge [("USD", 1)] apiRates

/-- Result of one call to `fetchExchangeRates`: the cache state afterwards,
the table the promise resolved with, and whether `https.get` was issued. -/
structure FetchResult where
  state : CacheState
  table : RateTable
  fetched : Bool
deriving Repr, DecidableEq

/-- src/app/index.js lines 25-83, one call of `fetchExchangeRates` as a
function of the state, the clock and the provider outcome:
  * lines 30-34: if `now - lastFetchTime < CACHE_DURATION`, resolve the
    cached table, no request;
  * lines 49-57: response with a `rates` field: replace `exchangeRates`
    by the merged object, set `lastFetchTime = now`, resolve it;
  * lines 58-61, 62-66, 70-74, 77-81: missing rates field, parse error,
    transport error, timeout: resolve `fallbackRates`, state untouched. -/
def fetchExchangeRates (s : CacheState) (now : Int) (o : ProviderOutcome) :
    FetchResult :=
  if now - s.lastFetchTime < CACHE_DURATION then
    ⟨s, s.exchangeRates, false⟩
  else
    match o with
    | .success apiRates => ⟨⟨mergedRates apiRates, now⟩, mergedRates apiRates, true⟩
    | .missingRates => ⟨s, fallbackRates, true⟩
    | .parseError => ⟨s, fallbackRates, true⟩
    | .networkError => ⟨s, fallbackRates, true⟩
    | .timeout => ⟨s, fallbackRates, true⟩

/-- JS `Math.round`: nearest integer, half toward positive infinity. -/
def jsMathRound (q : ℚ) : Int := ⌊q + 1/2⌋

/-- src/app/index.js line 102: `Math.round(result * 100) / 100`. -/
def round2 (q : ℚ) : ℚ := (jsMathRound (q * 100) : ℚ) / 100

/-- src/app/index.js lines 91-102, the conversion arithmetic applied to a
resolved rate table: look both codes up; the guard `!fromRate || !toRate`
is true when a lookup misses or yields 0 (JS falsiness), returning null;
otherwise `(amount / fromRate) * toRate` rounded once to 2 decimals. -/
def convertCurrency (rates : RateTable) (fromCode toCode : String)
    (amount : ℚ) : Option ℚ :=
  match rates.lookup fromCode, rates.lookup toCode with
  | some fromRate, some toRate =>
      if fromRate = 0 ∨ toRate = 0 then none
      else some (round2 (amount / fromRate * toRate))
  | _, _ => none

/-- The promise settlement of `fetchExchangeRates`: each branch of the
executor calls `resolve`; the `reject` handle exists but no branch calls
it. -/
inductive FetchAction where
  | resolveA (table : RateTable)
  | rejectA
deriving Repr, DecidableEq

/-- The settlement performed by each branch of `fetchExchangeRates`
(src/app/index.js lines 32, 57, 60, 65, 73, 80 all call `resolve`). -/
def fetchAction (s : CacheState) (now : Int) (o : ProviderOutcome) :
    FetchAction :=
  if now - s.lastFetchTime < CACHE_DURATION then
    .resolveA s.exchangeRates
  else
    match o with
    | .success apiRates => .resolveA (mergedRates apiRates)
    | .missingRates => .resolveA fallbackRates
    | .parseError => .resolveA fallbackRates
    | .networkError => .resolveA fallbackRates
    | .timeout => .resolveA fallbackRates

/-- Observable outcome of `convertCurrency` (src/app/index.js 86-107)
including its try/catch: `caughtError` is the catch branch returning null
after a rejected await. -/
inductive ConvertOutcome where
  | converted (q : ℚ)
  | invalidCurrency
  | caughtError
deriving Repr, DecidableEq

/-- src/app/index.js lines 86-107: `convertCurrency` awaits the fetch and
converts; a rejection would be caught and turned into null. -/
def convertCurrencyFull (s : CacheState) (now : Int) (o : ProviderOutcome)
    (fromCode toCode : String) (amount : ℚ) : ConvertOutcome :=
  match fetchAction s now o with
  | .rejectA => .caughtError
  | .resolveA rates =>
      match convertCurrency rates fromCode toCode amount with
      | none => .invalidCurrency
      | some q => .converted q

/-- src/app/index.js line 410 (and 366): the provenance the HTTP layer
reports: live iff `now - lastFetchTime < CACHE_DURATION && lastFetchTime > 0`. -/
def ratesSourceLive (s : CacheState) (now : Int) : Bool :=
  decide (now - s.lastFetchTime < CACHE_DURATION) && decide (0 < s.lastFetchTime)

/-- A sequence of calls to `fetchExchangeRates`, each given by its clock
reading and provider outcome; returns the final state and the list of
resolved tables. -/
def runCalls (s : CacheState) (calls : List (Int × ProviderOutcome)) :
    CacheState × List RateTable :=
  match calls with
  | [] => (s, [])
  | (now, o) :: rest =>
      let r := fetchExchangeRates s now o
      ((runCalls r.state rest).1, r.table :: (runCalls r.state rest).2)

/-- Responses of the `/convert` HTTP handler (src/app/index.js 380-416)
relevant to validation and conversion. -/
inductive ConvertResponse where
  | invalidAmount
  | invalidCurrency
  | ok (result : ℚ)
deriving Repr, DecidableEq

/-- HTTP status code of each `/convert` response. -/
def ConvertResponse.statusCode : ConvertResponse → Nat
  | .invalidAmount => 400
  | .invalidCurrency => 400
  | .ok _ => 200

/-- src/app/index.js lines 390-415: the `/convert` handler after parameter
presence checks. `numAmount = parseFloat(amount)` is modelled as an
`Option ℚ` (`none` = NaN). The returned Bool records whether
`convertCurrency` (and hence the fetch) was invoked. -/
def handleConvert (s : CacheState) (now : Int) (o : ProviderOutcome)
    (fromCode toCode : String) (numAmount : Option ℚ) :
    ConvertResponse × Bool :=
  match numAmount with
  | none => (.invalidAmount, false)
  | some amt =>
      if amt < 0 then (.invalidAmount, false)
      else
        match convertCurrency (fetchExchangeRates s now o).table
            fromCode toCode amt with
        | none => (.invalidCurrency, true)
        | some r => (.ok r, true)

/-! ## Helper lemmas -/

theorem convertCurrency_eq (rates : RateTable) (fromCode toCode : String)
    (amount rf rt : ℚ) (hf : rates.lookup fromCode = some rf)
    (ht : rates.lookup toCode = some rt) (hf0 : rf ≠ 0) (ht0 : rt ≠ 0) :
    convertCurrency rates fromCode toCode amount
      = some (round2 (amount / rf * rt)) := by
  unfold convertCurrency
  rw [hf, ht]
  simp [hf0, ht0]

theorem abs_round2_sub_le (q : ℚ) : |round2 q - q| ≤ 1 / 200 := by
  have h1 : ((⌊q * 100 + 1/2⌋ : Int) : ℚ) ≤ q * 100 + 1/2 := Int.floor_le _
  have h2 : q * 100 + 1/2 - 1 < ((⌊q * 100 + 1/2⌋ : Int) : ℚ) :=
    Int.sub_one_lt_floor _
  unfold round2 jsMathRound
  rw [abs_le]
  constructor <;> linarith

theorem fetch_state_frame (s : CacheState) (now : Int) (o : ProviderOutcome)
    (ho : o.isFailure = true) : (fetchExchangeRates s now o).state = s := by
  unfold fetchExchangeRates
  split
  · rfl
  · cases o with
    | success apiRates => simp [ProviderOutcome.isFailure] at ho
    | missingRates => rfl
    | parseError => rfl
    | networkError => rfl
    | timeout => rfl

theorem fetch_fail_stale (s : CacheState) (now : Int) (o : ProviderOutcome)
    (ho : o.isFailure = true)
    (hstale : ¬(now - s.lastFetchTime < CACHE_DURATION)) :
    fetchExchangeRates s now o = ⟨s, fallbackRates, true⟩ := by
  unfold fetchExchangeRates
  rw [if_neg hstale]
  cases o with
  | success apiRates => simp [ProviderOutcome.isFailure] at ho
  | missingRates => rfl
  | parseError => rfl
  | networkError => rfl
  | timeout => rfl

theorem fetch_fail_from_init (now : Int) (o : ProviderOutcome)
    (ho : o.isFailure = true) :
    (fetchExchangeRates initialState now o).state = initialState ∧
    (fetchExchangeRates initialState now o).table = fallbackRates := by
  unfold fetchExchangeRates
  split
  · exact ⟨rfl, rfl⟩
  · cases o with
    | success apiRates => simp [ProviderOutcome.isFailure] at ho
    | missingRates => exact ⟨rfl, rfl⟩
    | parseError => exact ⟨rfl, rfl⟩
    | networkError => exact ⟨rfl, rfl⟩
    | timeout => exact ⟨rfl, rfl⟩

theorem runCalls_fail (calls : List (Int × ProviderOutcome))
    (h : ∀ c ∈ calls, (c.2).isFailure = true) :
    (runCalls initialState calls).1 = initialState ∧
    ∀ t ∈ (runCalls initialState calls).2, t = fallbackRates := by
  induction calls with
  | nil => simp [runCalls]
  | cons c rest ih =>
    obtain ⟨now, o⟩ := c
    have ho : o.isFailure = true := h (now, o) (List.mem_cons_self _ _)
    have hrest : ∀ c ∈ rest, (c.2).isFailure = true :=
      fun c hc => h c (List.mem_cons_of_mem _ hc)
    have hs := (fetch_fail_from_init now o ho).1
    have ht := (fetch_fail_from_init now o ho).2
    simp only [runCalls]
    rw [hs, ht]
    refine ⟨(ih hrest).1, ?_⟩
    intro t htmem
    rcases List.mem_cons.mp htmem with h1 | h2
    · exact h1
    · exact (ih hrest).2 t h2

theorem fetchAction_resolves (s : CacheState) (now : Int)
    (o : ProviderOutcome) : ∃ t, fetchAction s now o = .resolveA t := by
  unfold fetchAction
  split
  · exact ⟨_, rfl⟩
  · cases o <;> exact ⟨_, rfl⟩

theorem convertCurrency_shape (rates : RateTable) (f t : String) (a : ℚ) :
    (∃ x, convertCurrency rates f t a = some (round2 x)) ∨
      convertCurrency rates f t a = none := by
  unfold convertCurrency
  split
  · split
    · right; rfl
    · left; exact ⟨_, rfl⟩
  · right; rfl

/-! ## Claim theorems -/

/-- C1: the claim states that after every cache update the base currency
USD maps to exactly 1.0 regardless of the rate for USD in the provider
response. The source violates this: in `exchangeRates = { USD: 1.0,
...apiResponse.rates }` (lines 51-54) the spread is written after the
`USD: 1.0` entry, so a `USD` key in the response overrides the forced 1.0.
Evaluated at a response carrying `USD: 2`, the updated cache maps USD to
2, not 1 — contradicting the inline comment `// Base currency` and the
spec sentence the claim quotes. -/
theorem usd_base_not_forced :
    (fetchExchangeRates initialState CACHE_DURATION
      (.success [("USD", 2), ("INR", 88)])).state.exchangeRates.lookup "USD"
      = some 2 ∧ (2 : ℚ) ≠ 1 := by
  constructor
  · simp [fetchExchangeRates, initialState, CACHE_DURATION, mergedRates,
      objMerge, List.lookup, List.filter]
  · norm_num

/-- C2: if `now - lastFetchTime < CACHE_DURATION` and the table was
fetched before (`lastFetchTime` is not the never-fetched value 0), the
call returns the cached table and issues no outbound request; hence a
stale call that succeeds, followed by a second call within the cache
window, issues exactly one outbound request in total and both calls
return the same table. -/
theorem cache_fast_path :
    (∀ (s : CacheState) (now : Int) (o : ProviderOutcome),
      now - s.lastFetchTime < CACHE_DURATION → s.lastFetchTime ≠ 0 →
      fetchExchangeRates s now o = ⟨s, s.exchangeRates, false⟩) ∧
    (∀ (s : CacheState) (now1 now2 : Int) (apiRates : RateTable)
        (o2 : ProviderOutcome),
      CACHE_DURATION ≤ now1 - s.lastFetchTime →
      now2 - now1 < CACHE_DURATION →
      (fetchExchangeRates s now1 (.success apiRates)).fetched = true ∧
      (fetchExchangeRates (fetchExchangeRates s now1 (.success apiRates)).state
          now2 o2).fetched = false ∧
      (fetchExchangeRates (fetchExchangeRates s now1 (.success apiRates)).state
          now2 o2).table
        = (fetchExchangeRates s now1 (.success apiRates)).table) := by
  constructor
  · intro s now o h _
    unfold fetchExchangeRates
    rw [if_pos h]
  · intro s now1 now2 apiRates o2 h1 h2
    have hns : ¬(now1 - s.lastFetchTime < CACHE_DURATION) := not_lt.mpr h1
    have e1 : fetchExchangeRates s now1 (.success apiRates)
        = ⟨⟨mergedRates apiRates, now1⟩, mergedRates apiRates, true⟩ := by
      unfold fetchExchangeRates
      rw [if_neg hns]
    have e2 : fetchExchangeRates (⟨mergedRates apiRates, now1⟩ : CacheState)
        now2 o2
        = ⟨⟨mergedRates apiRates, now1⟩, mergedRates apiRates, false⟩ := by
      unfold fetchExchangeRates
      rw [if_pos h2]
    simp only [e1, e2]
    exact ⟨trivial, trivial, trivial⟩

/-- C2 witness: a concrete fresh-cache call (lastFetchTime = 5, now = 6)
returns the cached table without fetching. -/
theorem cache_fast_path_witness :
    fetchExchangeRates ⟨fallbackRates, 5⟩ 6 .networkError
      = ⟨⟨fallbackRates, 5⟩, fallbackRates, false⟩ :=
  cache_fast_path.1 ⟨fallbackRates, 5⟩ 6 .networkError (by decide) (by decide)

/-- C3: every failed fetch attempt (missing rates field, parse error,
network error, timeout) resolves the fallback table and leaves the state
— in particular `lastFetchTime` — unchanged; consequently, with a
provider that always fails, every call from the initial state returns the
fallback table, the state stays at the initial state (lastFetchTime never
advances from 0), and the HTTP layer reports non-live provenance at every
instant. -/
theorem failed_fetch_returns_fallback :
    (∀ (s : CacheState) (now : Int) (o : ProviderOutcome),
      o.isFailure = true → CACHE_DURATION ≤ now - s.lastFetchTime →
      fetchExchangeRates s now o = ⟨s, fallbackRates, true⟩ ∧
      ratesSourceLive s now = false) ∧
    (∀ calls : List (Int × ProviderOutcome),
      (∀ c ∈ calls, (c.2).isFailure = true) →
      (runCalls initialState calls).1 = initialState ∧
      (∀ t ∈ (runCalls initialState calls).2, t = fallbackRates) ∧
      ∀ now : Int, ratesSourceLive (runCalls initialState calls).1 now
        = false) := by
  constructor
  · intro s now o ho h
    have hns : ¬(now - s.lastFetchTime < CACHE_DURATION) := not_lt.mpr h
    refine ⟨fetch_fail_stale s now o ho hns, ?_⟩
    simp [ratesSourceLive, hns]
  · intro calls h
    refine ⟨(runCalls_fail calls h).1, (runCalls_fail calls h).2, ?_⟩
    intro now
    rw [(runCalls_fail calls h).1]
    simp [ratesSourceLive, initialState]

/-- C3 witness: a concrete stale timeout attempt returns the fallback
table and an unchanged state; a concrete two-call all-failing run from the
initial state returns the fallback table twice and never advances
lastFetchTime. -/
theorem failed_fetch_returns_fallback_witness :
    fetchExchangeRates ⟨[("USD", 1), ("INR", 90)], 42⟩ (CACHE_DURATION + 42)
      .timeout = ⟨⟨[("USD", 1), ("INR", 90)], 42⟩, fallbackRates, true⟩ ∧
    (runCalls initialState
      [(CACHE_DURATION, .networkError), (2 * CACHE_DURATION, .timeout)]).1
      = initialState := by
  constructor
  · exact (failed_fetch_returns_fallback.1 ⟨[("USD", 1), ("INR", 90)], 42⟩
      (CACHE_DURATION + 42) .timeout rfl (by decide)).1
  · exact (failed_fetch_returns_fallback.2
      [(CACHE_DURATION, .networkError), (2 * CACHE_DURATION, .timeout)]
      (by decide)).1

/-- C4: for every non-negative amount and pair of codes: a missing lookup
yields the null (InvalidCurrency) result — no default rate is substituted
— and when both codes are present with the (invariant) positive rates, the
result is round2 applied exactly once to the full expression
`amount / fromRate * toRate`. -/
theorem convert_missing_or_formula (rates : RateTable)
    (fromCode toCode : String) (amount : ℚ) (_h0 : 0 ≤ amount) :
    (rates.lookup fromCode = none ∨ rates.lookup toCode = none →
      convertCurrency rates fromCode toCode amount = none) ∧
    (∀ rf rt : ℚ, rates.lookup fromCode = some rf →
      rates.lookup toCode = some rt → 0 < rf → 0 < rt →
      convertCurrency rates fromCode toCode amount
        = some (round2 (amount / rf * rt))) := by
  constructor
  · intro h
    unfold convertCurrency
    rcases h with h | h
    · rw [h]
    · rw [h]
      cases rates.lookup fromCode <;> rfl
  · intro rf rt hf ht hf0 ht0
    exact convertCurrency_eq rates fromCode toCode amount rf rt hf ht
      (ne_of_gt hf0) (ne_of_gt ht0)

/-- C4 witness: the unsupported code XXX yields null, and
convert(USD, INR, 100) on the fallback table yields 8800.00. -/
theorem convert_missing_or_formula_witness :
    convertCurrency fallbackRates "XXX" "USD" 10 = none ∧
    convertCurrency fallbackRates "USD" "INR" 100 = some 8800 := by
  constructor
  · exact (convert_missing_or_formula fallbackRates "XXX" "USD" 10
      (by norm_num)).1 (Or.inl (by simp [fallbackRates, List.lookup]))
  · have h := (convert_missing_or_formula fallbackRates "USD" "INR" 100
      (by norm_num)).2 1 88 (by simp [fallbackRates, List.lookup])
      (by simp [fallbackRates, List.lookup]) one_pos (by norm_num)
    rw [h]
    norm_num [round2, jsMathRound]

/-- C5: the claim states every fetch failure is reported as a Failure
value carrying a reason code distinguishing the failure condition. The
source instead resolves the plain fallback table on every failure branch:
at a concrete stale call, the network-error, timeout, parse-error and
missing-rates outcomes produce results that are all equal — no reason
code, and nothing distinguishing the conditions — refuting the claim. -/
theorem fetch_failure_reason_counterexample :
    fetchExchangeRates initialState CACHE_DURATION .networkError
      = fetchExchangeRates initialState CACHE_DURATION .timeout ∧
    fetchExchangeRates initialState CACHE_DURATION .networkError
      = fetchExchangeRates initialState CACHE_DURATION .parseError ∧
    fetchExchangeRates initialState CACHE_DURATION .networkError
      = fetchExchangeRates initialState CACHE_DURATION .missingRates ∧
    (fetchExchangeRates initialState CACHE_DURATION .networkError).table
      = fallbackRates := by
  refine ⟨?_, ?_, ?_, ?_⟩ <;> rfl

/-- C5 amended: the fetch never rejects past its boundary — every branch
settles by resolving some table — but failures are not discriminated: all
failure conditions produce identical results, and on a stale attempt the
resolved table is the plain fallback table with no reason code attached. -/
theorem fetch_failure_amended :
    (∀ (s : CacheState) (now : Int) (o : ProviderOutcome),
      ∃ t, fetchAction s now o = .resolveA t) ∧
    (∀ (s : CacheState) (now : Int) (o o' : ProviderOutcome),
      o.isFailure = true → o'.isFailure = true →
      fetchExchangeRates s now o = fetchExchangeRates s now o') ∧
    (∀ (s : CacheState) (now : Int) (o : ProviderOutcome),
      o.isFailure = true → CACHE_DURATION ≤ now - s.lastFetchTime →
      (fetchExchangeRates s now o).table = fallbackRates) := by
  refine ⟨fetchAction_resolves, ?_, ?_⟩
  · intro s now o o' ho ho'
    unfold fetchExchangeRates
    split
    · rfl
    · cases o <;> cases o' <;> simp_all [ProviderOutcome.isFailure]
  · intro s now o ho h
    rw [fetch_fail_stale s now o ho (not_lt.mpr h)]

/-- C5 amended witness: at a concrete stale call, network error and parse
error settle identically. -/
theorem fetch_failure_amended_witness :
    fetchExchangeRates initialState (CACHE_DURATION + 1) .networkError
      = fetchExchangeRates initialState (CACHE_DURATION + 1) .parseError :=
  fetch_failure_amended.2.1 initialState (CACHE_DURATION + 1)
    .networkError .parseError rfl rfl

/-- C6: converting a currency to itself yields the amount rounded once to
two decimals, for any code present in the table with a positive rate. -/
theorem convert_self (rates : RateTable) (code : String) (amount r : ℚ)
    (h : rates.lookup code = some r) (hr : 0 < r) (_h0 : 0 ≤ amount) :
    convertCurrency rates code code amount = some (round2 amount) := by
  rw [convertCurrency_eq rates code code amount r r h h
    (ne_of_gt hr) (ne_of_gt hr)]
  rw [div_mul_cancel₀ amount (ne_of_gt hr)]

/-- C6 witness: convert(EUR, EUR, 3.5) on the fallback table yields 3.5. -/
theorem convert_self_witness :
    convertCurrency fallbackRates "EUR" "EUR" (7/2) = some (7/2) := by
  rw [convert_self fallbackRates "EUR" (7/2) (92/100)
    (by simp [fallbackRates, List.lookup]) (by norm_num) (by norm_num)]
  norm_num [round2, jsMathRound]

/-- C7: the claim states a round trip recovers the amount up to at most
0.01 rounding error per hop. It fails on the source: with the fallback
table, convert(JPY, GBP, 1) rounds 0.00499… to 0.00, and converting 0
back yields 0, an error of 1 — far beyond the stated 0.01-per-hop
(0.02 total) tolerance. -/
theorem round_trip_counterexample :
    convertCurrency fallbackRates "JPY" "GBP" 1 = some 0 ∧
    convertCurrency fallbackRates "GBP" "JPY" 0 = some 0 ∧
    ¬(|(0 : ℚ) - 1| ≤ 2 / 100) := by
  refine ⟨?_, ?_, by norm_num⟩ <;>
    · simp [convertCurrency, fallbackRates, List.lookup, round2, jsMathRound]
      norm_num

/-- C7 amended: with the table unchanged between calls, a round trip
A → B → A recovers the amount up to 1/200 · (rateA / rateB) + 1/200:
half a unit of the last decimal from the final rounding plus the first
rounding error amplified by the rate ratio. The stated 0.01-per-hop bound
holds only when rateA ≤ rateB. -/
theorem round_trip_amended (rates : RateTable) (a b : String)
    (amount rA rB c1 c2 : ℚ) (ha : rates.lookup a = some rA)
    (hb : rates.lookup b = some rB) (hA : 0 < rA) (hB : 0 < rB)
    (_h0 : 0 ≤ amount)
    (hc1 : convertCurrency rates a b amount = some c1)
    (hc2 : convertCurrency rates b a c1 = some c2) :
    |c2 - amount| ≤ 1/200 * (rA / rB) + 1/200 := by
  have hA' : rA ≠ 0 := ne_of_gt hA
  have hB' : rB ≠ 0 := ne_of_gt hB
  have e1 : c1 = round2 (amount / rA * rB) := by
    rw [convertCurrency_eq rates a b amount rA rB ha hb hA' hB'] at hc1
    exact (Option.some.inj hc1).symm
  have e2 : c2 = round2 (c1 / rB * rA) := by
    rw [convertCurrency_eq rates b a c1 rB rA hb ha hB' hA'] at hc2
    exact (Option.some.inj hc2).symm
  have d1 : |c1 - amount / rA * rB| ≤ 1/200 := by
    rw [e1]
    exact abs_round2_sub_le _
  have d2 : |c2 - c1 / rB * rA| ≤ 1/200 := by
    rw [e2]
    exact abs_round2_sub_le _
  have hr : (0 : ℚ) < rA / rB := div_pos hA hB
  have key : c1 / rB * rA - amount = (c1 - amount / rA * rB) * (rA / rB) := by
    field_simp
    ring
  have d3 : |c1 / rB * rA - amount| ≤ 1/200 * (rA / rB) := by
    rw [key, abs_mul, abs_of_pos hr]
    exact mul_le_mul_of_nonneg_right d1 (le_of_lt hr)
  calc |c2 - amount| ≤ |c2 - c1 / rB * rA| + |c1 / rB * rA - amount| :=
        abs_sub_le _ _ _
    _ ≤ 1/200 + 1/200 * (rA / rB) := add_le_add d2 d3
    _ = 1/200 * (rA / rB) + 1/200 := by ring

/-- C7 amended witness: the round trip USD → INR → USD of 100 on the
fallback table returns exactly 100, within the bound. -/
theorem round_trip_amended_witness :
    |(100 : ℚ) - 100| ≤ 1/200 * ((1 : ℚ) / 88) + 1/200 := by
  have hc1 : convertCurrency fallbackRates "USD" "INR" 100 = some 8800 := by
    simp [convertCurrency, fallbackRates, List.lookup, round2, jsMathRound]
    norm_num
  have hc2 : convertCurrency fallbackRates "INR" "USD" 8800 = some 100 := by
    simp [convertCurrency, fallbackRates, List.lookup, round2, jsMathRound]
    norm_num
  exact round_trip_amended fallbackRates "USD" "INR" 100 1 88 8800 100
    (by simp [fallbackRates, List.lookup]) (by simp [fallbackRates, List.lookup])
    one_pos (by norm_num) (by norm_num) hc1 hc2

/-- C8: every conversion request whose amount parses to a negative number
is answered with the InvalidAmount 400 response before `convertCurrency`
(and hence the fetch) is invoked, and the handler performs no retry —
its decision is a pure function of this one request. -/
theorem negative_amount_rejected (s : CacheState) (now : Int)
    (o : ProviderOutcome) (fromCode toCode : String) (q : ℚ) (hq : q < 0) :
    handleConvert s now o fromCode toCode (some q) = (.invalidAmount, false) ∧
    (handleConvert s now o fromCode toCode (some q)).1.statusCode = 400 := by
  have h : handleConvert s now o fromCode toCode (some q)
      = (.invalidAmount, false) := by
    simp [handleConvert, hq]
  exact ⟨h, by rw [h]; rfl⟩

/-- C8 witness: convert(USD, INR, -5) yields the InvalidAmount 400
response with no conversion performed. -/
theorem negative_amount_rejected_witness :
    handleConvert initialState 0 .networkError "USD" "INR" (some (-5))
      = (.invalidAmount, false) :=
  (negative_amount_rejected initialState 0 .networkError "USD" "INR" (-5)
    (by norm_num)).1

/-- C9: every failed fetch attempt leaves the stored cache state
completely unchanged — both the cached table (which may be a previously
fetched live table) and lastFetchTime are exactly what they were — while,
on an attempt that actually goes out (stale cache), the value resolved for
that one call is the fallback table. -/
theorem failed_fetch_frame (s : CacheState) (now : Int)
    (o : ProviderOutcome) (ho : o.isFailure = true) :
    (fetchExchangeRates s now o).state.exchangeRates = s.exchangeRates ∧
    (fetchExchangeRates s now o).state.lastFetchTime = s.lastFetchTime ∧
    (CACHE_DURATION ≤ now - s.lastFetchTime →
      (fetchExchangeRates s now o).table = fallbackRates) := by
  have hs := fetch_state_frame s now o ho
  refine ⟨by rw [hs], by rw [hs], ?_⟩
  intro h
  rw [fetch_fail_stale s now o ho (not_lt.mpr h)]

/-- C9 witness: a stale network-error attempt on a concrete live cache
keeps the live table and timestamp, returning the fallback table only as
the resolved value. -/
theorem failed_fetch_frame_witness :
    (fetchExchangeRates ⟨[("USD", 1), ("EUR", 1)], 7⟩ (CACHE_DURATION + 7)
      .networkError).state.exchangeRates = [("USD", 1), ("EUR", 1)] ∧
    (fetchExchangeRates ⟨[("USD", 1), ("EUR", 1)], 7⟩ (CACHE_DURATION + 7)
      .networkError).table = fallbackRates := by
  have h := failed_fetch_frame ⟨[("USD", 1), ("EUR", 1)], 7⟩
    (CACHE_DURATION + 7) .networkError rfl
  exact ⟨h.1, h.2.2 (by decide)⟩

/-- C10: the fetch settles by resolving some table on every path — its
reject handle is invoked on no branch — so the catch branch of
`convertCurrency` is unreachable and every conversion evaluates to either
a once-rounded number or the InvalidCurrency (null) signal. -/
theorem fetch_total_convert_safe :
    (∀ (s : CacheState) (now : Int) (o : ProviderOutcome),
      ∃ t, fetchAction s now o = .resolveA t) ∧
    (∀ (s : CacheState) (now : Int) (o : ProviderOutcome)
        (fromCode toCode : String) (amount : ℚ),
      convertCurrencyFull s now o fromCode toCode amount ≠ .caughtError ∧
      ((∃ q, convertCurrencyFull s now o fromCode toCode amount
          = .converted (round2 q)) ∨
        convertCurrencyFull s now o fromCode toCode amount
          = .invalidCurrency)) := by
  refine ⟨fetchAction_resolves, ?_⟩
  intro s now o fromCode toCode amount
  obtain ⟨t, ht⟩ := fetchAction_resolves s now o
  have hfull : convertCurrencyFull s now o fromCode toCode amount
      = match convertCurrency t fromCode toCode amount with
        | none => ConvertOutcome.invalidCurrency
        | some q => ConvertOutcome.converted q := by
    unfold convertCurrencyFull
    rw [ht]
  rcases convertCurrency_shape t fromCode toCode amount with ⟨x, hx⟩ | hx <;>
    rw [hfull, hx]
  · exact ⟨by simp, Or.inl ⟨x, rfl⟩⟩
  · exact ⟨by simp, Or.inr rfl⟩

end CurrencyConverter
